import Mathlib

/-!
# sdeploy — shallow embedding of the concurrency/lifecycle core

This file embeds, in Lean, the parts of the sdeploy deployment daemon that
the verified properties talk about:

* the configuration loader (`LoadConfig` / `validateConfig` in
  `cmd/sdeploy/config.go`),
* the configuration manager with hot reload
  (`triggerReload` / `reloadConfig` / `ProcessPendingReload` in
  `cmd/sdeploy/hotreload.go`),
* the deployment executor (`Deploy`, `handleGitOperations`, `gitClone`,
  `gitPull`, `executeCommand`, `getEffectiveRunAs` in the deployer file that
  carries the in-flight `activeBuilds` counter).

External effects (filesystem probes, process spawning, the git commands, the
SMTP notifier, timers) are modelled as inputs describing their outcomes, and
the actions the code performs are recorded in an event trace, so that ordering
and presence/absence of side effects can be stated and proved.

Machine integers of the source (`int`, `int32`) stay well inside their ranges
in every property below, so they are modelled as `Nat`.
-/

/-! ## Data model: configuration (`config.go`) -/

/-- `EmailConfig` from `config.go`: global SMTP settings. -/
structure EmailConfig where
  smtpHost : String := ""
  smtpPort : Nat := 0
  smtpUser : String := ""
  smtpPass : String := ""
  emailSender : String := ""
deriving DecidableEq, Repr

/-- `ProjectConfig` from `config.go`, with the fields the deployer version
of the code reads (`LocalPath`, `RunAsUser`, `RunAsGroup`) included: the
struct declaration with those fields is the one the deployer and its tests
compile against. Go zero values are the defaults. -/
structure ProjectConfig where
  name : String := ""
  webhookPath : String := ""
  webhookSecret : String := ""
  gitRepo : String := ""
  gitPath : String := ""
  localPath : String := ""
  executePath : String := ""
  gitBranch : String := ""
  executeCommand : String := ""
  gitUpdate : Bool := false
  timeoutSeconds : Nat := 0
  emailRecipients : List String := []
  runAsUser : String := ""
  runAsGroup : String := ""
deriving DecidableEq, Repr

/-- `Config` from `config.go`: the immutable configuration snapshot. -/
structure Config where
  listenPort : Nat := 0
  logFilepath : String := ""
  emailConfig : Option EmailConfig := none
  projects : List ProjectConfig := []
deriving DecidableEq, Repr

/-- The validation loop of `validateConfig` (`config.go:66-93`): walks the
project list, keeping the set of webhook paths already seen (the Go
`webhookPaths` map), and returns the first violation, if any.  `i` is the
0-based index used only to build the error messages. -/
def validateProjects (seen : List String) (i : Nat) :
    List ProjectConfig → Except String Unit
  | [] => .ok ()
  | p :: rest =>
    if p.webhookPath = "" then
      .error ("project " ++ toString (i + 1) ++ ": webhook_path is required")
    else if p.webhookSecret = "" then
      .error ("project " ++ toString (i + 1) ++ " (" ++ p.name ++
        "): webhook_secret is required")
    else if p.executeCommand = "" then
      .error ("project " ++ toString (i + 1) ++ " (" ++ p.name ++
        "): execute_command is required")
    else if seen.contains p.webhookPath then
      .error ("duplicate webhook_path: " ++ p.webhookPath)
    else
      validateProjects (p.webhookPath :: seen) (i + 1) rest

/-- `validateConfig` (`config.go:66-93`). -/
def validateConfig (cfg : Config) : Except String Unit :=
  validateProjects [] 0 cfg.projects

/-- `LoadConfig` (`config.go:41-64`).  Reading and JSON-decoding the file are
external I/O; their outcome is the input `raw` (`.error e` = unreadable file
or malformed JSON, `.ok cfg` = the decoded configuration).  `LoadConfig` then
defaults the listen port and validates. -/
def loadConfig (raw : Except String Config) : Except String Config :=
  match raw with
  | .error e => .error e
  | .ok cfg =>
    let cfg := if cfg.listenPort = 0 then { cfg with listenPort := 8080 } else cfg
    match validateConfig cfg with
    | .error e => .error e
    | .ok _ => .ok cfg

/-! ## Loader invariants -/

/-- Soundness of the validation loop: when it succeeds, every project has a
non-empty webhook path, secret and execute command, and no webhook path is
repeated (neither among the projects themselves nor against `seen`). -/
theorem validateProjects_ok (seen : List String) (i : Nat)
    (ps : List ProjectConfig) (h : validateProjects seen i ps = .ok ()) :
    (ps.map (·.webhookPath)).Nodup ∧
      (∀ p ∈ ps, p.webhookPath ∉ seen) ∧
      (∀ p ∈ ps, p.webhookPath ≠ "" ∧ p.webhookSecret ≠ "" ∧
        p.executeCommand ≠ "") := by
  induction ps generalizing seen i with
  | nil => simp
  | cons p rest ih =>
    rw [validateProjects] at h
    by_cases h1 : p.webhookPath = "" <;> simp [h1] at h
    by_cases h2 : p.webhookSecret = "" <;> simp [h2] at h
    by_cases h3 : p.executeCommand = "" <;> simp [h3] at h
    by_cases h4 : p.webhookPath ∈ seen <;> simp [h4] at h
    obtain ⟨hnd, hseen, hfields⟩ := ih (p.webhookPath :: seen) (i + 1) h
    refine ⟨?_, ?_, ?_⟩
    · refine List.nodup_cons.mpr ⟨?_, hnd⟩
      intro hmem
      obtain ⟨q, hq, hqe⟩ := List.mem_map.mp hmem
      exact (hseen q hq) (by rw [hqe]; exact List.mem_cons_self _ _)
    · intro q hq
      rcases List.mem_cons.mp hq with hq | hq
      · subst hq; exact h4
      · exact fun hc => (hseen q hq) (List.mem_cons_of_mem _ hc)
    · intro q hq
      rcases List.mem_cons.mp hq with hq | hq
      · subst hq; exact ⟨h1, h2, h3⟩
      · exact hfields q hq

/-- Completeness half: a duplicate webhook path or an empty required field in
the list makes the validation loop fail, whatever `seen` and `i` are. -/
theorem validateProjects_error (seen : List String) (i : Nat)
    (ps : List ProjectConfig)
    (hbad : ¬ (ps.map (·.webhookPath)).Nodup ∨
      ∃ p ∈ ps, p.webhookPath = "" ∨ p.webhookSecret = "" ∨
        p.executeCommand = "") :
    ∃ e, validateProjects seen i ps = .error e := by
  rcases h : validateProjects seen i ps with e | u
  · exact ⟨e, rfl⟩
  · obtain ⟨hnd, _, hfields⟩ := validateProjects_ok seen i ps (by
      cases u; exact h)
    rcases hbad with hbad | ⟨p, hp, hbad⟩
    · exact absurd hnd hbad
    · obtain ⟨f1, f2, f3⟩ := hfields p hp
      rcases hbad with hbad | hbad | hbad
      · exact absurd hbad f1
      · exact absurd hbad f2
      · exact absurd hbad f3

/-- C7 helper: the projects of a snapshot returned by `loadConfig` are the
projects of the raw decoded configuration. -/
theorem loadConfig_ok_projects (raw cfg : Config)
    (h : loadConfig (.ok raw) = .ok cfg) : cfg.projects = raw.projects := by
  rw [loadConfig] at h
  by_cases hp : raw.listenPort = 0 <;> simp [hp] at h <;>
    rcases hv : validateConfig (if raw.listenPort = 0 then
      { raw with listenPort := 8080 } else raw) with e | u <;>
    simp [hp] at hv <;> simp [hv] at h <;> simp [← h]

/-! ## Configuration manager (`hotreload.go`)

The `ConfigManager` holds the active snapshot, a `reloadPending` atomic flag
and the reload callback.  The fsnotify watcher, the debounce timer and the
logger are external; what the manager does to them is recorded as `CMEvent`s.
-/

/-- Observable actions of the configuration manager. -/
inductive CMEvent where
  | logInfo (msg : String)
  | logWarn (msg : String)
  | logError (msg : String)
  | swapConfig (newCfg : Config)
  | invokeCallback (newCfg : Config)
deriving DecidableEq, Repr

/-- The state of a `ConfigManager` (`hotreload.go:12-23`): the active
snapshot, the `reloadPending` flag, and whether an `onReload` callback is
registered (the callback itself is external code; only the fact that it is
invoked matters here). -/
structure CMState where
  config : Config
  reloadPending : Bool
  hasOnReload : Bool
deriving DecidableEq, Repr

/-- `reloadConfig` (`hotreload.go:140-179`): load and validate the candidate
from disk (`raw` is the outcome of reading/decoding the file, fed through
`loadConfig` exactly as `LoadConfig(cm.configPath)` is), keep the old
snapshot and log an error on failure; on success warn when the listen port
changed, swap the snapshot, and invoke the callback if registered.
The detailed `logConfigSummary` lines after a successful swap are collapsed
into the single success log event. -/
def reloadConfig (st : CMState) (raw : Except String Config) :
    CMState × List CMEvent :=
  let evs0 := [CMEvent.logInfo "Reloading configuration..."]
  match loadConfig raw with
  | .error e =>
    (st, evs0 ++ [CMEvent.logError ("Failed to reload configuration: " ++ e)])
  | .ok newCfg =>
    let warnEvs :=
      if newCfg.listenPort ≠ st.config.listenPort then
        [CMEvent.logWarn "listen_port changed. Restart required for this change to take effect."]
      else []
    ({ st with config := newCfg },
      evs0 ++ warnEvs ++
        [CMEvent.swapConfig newCfg,
         CMEvent.logInfo "Configuration reloaded successfully"] ++
        (if st.hasOnReload then [CMEvent.invokeCallback newCfg] else []))

/-- `triggerReload` (`hotreload.go:127-137`), run when the 500 ms debounce
timer started by a write/create fsnotify event fires: if `reloadPending` is
already set, just log and return; otherwise reload immediately.  Note that
this is the complete decision: no in-flight deployment counter is consulted
here, and no code path of the daemon ever stores `true` into
`reloadPending` (only the tests call `SetReloadPending`). -/
def triggerReload (st : CMState) (raw : Except String Config) :
    CMState × List CMEvent :=
  if st.reloadPending then
    (st, [CMEvent.logInfo "Configuration change detected, reload already pending"])
  else
    reloadConfig st raw

/-- `ProcessPendingReload` (`hotreload.go:192-200`): compare-and-swap the
pending flag from `true` to `false`; the winner performs the reload. -/
def processPendingReload (st : CMState) (raw : Except String Config) :
    CMState × List CMEvent :=
  if st.reloadPending then
    let (st', evs) := reloadConfig { st with reloadPending := false } raw
    (st', CMEvent.logInfo "Processing deferred configuration reload" :: evs)
  else
    (st, [])

/-- The daemon-level state the deferral property talks about: the
configuration manager plus the deployment executor's `activeBuilds`
in-flight counter (`atomic int32` owned by the `Deployer`). -/
structure SysState where
  cm : CMState
  activeBuilds : Nat
deriving DecidableEq, Repr

/-- A debounced configuration-change event as the daemon handles it: the
watch loop's timer fires and calls `cm.triggerReload()`.  The deployer's
`activeBuilds` counter is not read or written on this path. -/
def onConfigChangeEvent (sys : SysState) (raw : Except String Config) :
    SysState × List CMEvent :=
  let (cm', evs) := triggerReload sys.cm raw
  ({ sys with cm := cm' }, evs)

/-! ## Shared lemmas about the loader and the reload sequence -/

/-- A snapshot accepted by `loadConfig` passed its validation. -/
theorem loadConfig_ok_validate (cand cfg : Config)
    (h : loadConfig (.ok cand) = .ok cfg) : validateConfig cfg = .ok () := by
  rw [loadConfig] at h
  by_cases hp : cand.listenPort = 0 <;> simp [hp] at h <;>
    rcases hv : validateConfig (if cand.listenPort = 0 then
      { cand with listenPort := 8080 } else cand) with e | u <;>
    simp [hp] at hv <;> simp [hv] at h
  · cases u; rw [← h]; simpa [hp] using hv
  · cases u; rw [← h]; simpa [hp] using hv

/-- A candidate whose project list has a duplicate webhook path or an empty
required field is refused by `loadConfig`. -/
theorem loadConfig_error_of_bad (cand : Config)
    (hbad : ¬ (cand.projects.map (·.webhookPath)).Nodup ∨
      ∃ p ∈ cand.projects, p.webhookPath = "" ∨ p.webhookSecret = "" ∨
        p.executeCommand = "") :
    ∃ e, loadConfig (.ok cand) = .error e := by
  obtain ⟨e, he⟩ := validateProjects_error [] 0 cand.projects hbad
  refine ⟨e, ?_⟩
  rw [loadConfig]
  by_cases hp : cand.listenPort = 0 <;> simp [hp, validateConfig, he]

/-- On a load/validation failure, `reloadConfig` returns the state unchanged
and only logs. -/
theorem reloadConfig_of_loadError (st : CMState) (raw : Except String Config)
    (e : String) (h : loadConfig raw = .error e) :
    reloadConfig st raw =
      (st, [CMEvent.logInfo "Reloading configuration...",
            CMEvent.logError ("Failed to reload configuration: " ++ e)]) := by
  simp [reloadConfig, h]

/-! ## Claims about the configuration manager -/

/-- The snapshot active in the C1 scenario. -/
def c1OldConfig : Config :=
  { listenPort := 8080,
    projects := [{ name := "Initial", webhookPath := "/hooks/test",
                   webhookSecret := "secret123",
                   executeCommand := "echo initial" }] }

/-- The changed (valid) candidate written to disk in the C1 scenario. -/
def c1NewConfig : Config :=
  { listenPort := 8080,
    projects := [{ name := "Updated", webhookPath := "/hooks/test",
                   webhookSecret := "secret123",
                   executeCommand := "echo updated" }] }

/-- The daemon state of the C1 scenario: one deployment in flight
(`activeBuilds = 1`), no reload pending (the daemon never sets the flag),
fresh manager. -/
def c1Sys : SysState :=
  { cm := { config := c1OldConfig, reloadPending := false, hasOnReload := false },
    activeBuilds := 1 }

/-- C1: the claim says a configuration-change event arriving while the
in-flight counter is positive must set the reload-pending flag, return, and
leave the snapshot unchanged until the counter reaches zero.  The code does
not do this: `triggerReload` never consults the counter, and no production
code path ever sets `reloadPending`, so with one deployment in flight the
event swaps the snapshot immediately and the flag stays `false`. -/
theorem C1_reload_applied_while_deployment_active :
    0 < c1Sys.activeBuilds ∧
    c1NewConfig ≠ c1Sys.cm.config ∧
    (onConfigChangeEvent c1Sys (.ok c1NewConfig)).1.cm.config = c1NewConfig ∧
    (onConfigChangeEvent c1Sys (.ok c1NewConfig)).1.cm.reloadPending = false ∧
    CMEvent.swapConfig c1NewConfig ∈ (onConfigChangeEvent c1Sys (.ok c1NewConfig)).2 :=
  ⟨by decide, by decide, by decide, by decide, by decide⟩

/-- C6: a reload attempt whose candidate fails to load or fails structural
validation leaves the active snapshot untouched (the whole manager state is
unchanged, so `current()` returns the prior snapshot), logs the error, and
neither swaps a snapshot nor invokes the change callback. -/
theorem C6_failed_reload_preserves_snapshot (st : CMState)
    (raw : Except String Config) (e : String)
    (h : loadConfig raw = .error e) :
    (reloadConfig st raw).1 = st ∧
    CMEvent.logError ("Failed to reload configuration: " ++ e) ∈
      (reloadConfig st raw).2 ∧
    (∀ c, CMEvent.swapConfig c ∉ (reloadConfig st raw).2) ∧
    (∀ c, CMEvent.invokeCallback c ∉ (reloadConfig st raw).2) := by
  rw [reloadConfig_of_loadError st raw e h]
  simp

/-- A structurally invalid candidate for the C6 witness: two projects share
the webhook path `/hooks/test`. -/
def c6DupConfig : Config :=
  { listenPort := 8080,
    projects := [{ name := "A", webhookPath := "/hooks/test",
                   webhookSecret := "s1", executeCommand := "echo a" },
                 { name := "B", webhookPath := "/hooks/test",
                   webhookSecret := "s2", executeCommand := "echo b" }] }

/-- C6 witness: reloading the duplicate-path candidate over the C1 snapshot
keeps the manager state and produces no swap or callback. -/
theorem C6_failed_reload_preserves_snapshot_witness :
    loadConfig (.ok c6DupConfig) =
      .error "duplicate webhook_path: /hooks/test" ∧
    ((reloadConfig c1Sys.cm (.ok c6DupConfig)).1 = c1Sys.cm ∧
      CMEvent.logError
          ("Failed to reload configuration: " ++ "duplicate webhook_path: /hooks/test") ∈
        (reloadConfig c1Sys.cm (.ok c6DupConfig)).2 ∧
      (∀ c, CMEvent.swapConfig c ∉ (reloadConfig c1Sys.cm (.ok c6DupConfig)).2) ∧
      (∀ c, CMEvent.invokeCallback c ∉ (reloadConfig c1Sys.cm (.ok c6DupConfig)).2)) :=
  ⟨rfl,
   C6_failed_reload_preserves_snapshot c1Sys.cm (.ok c6DupConfig)
     "duplicate webhook_path: /hooks/test" rfl⟩

/-- C7: every snapshot the loader returns satisfies the snapshot invariants
(webhook paths pairwise distinct, every execute command non-empty), and a
decoded candidate violating either invariant is answered with an error
instead of a snapshot. -/
theorem C7_snapshot_invariants (cand : Config) :
    (∀ cfg, loadConfig (.ok cand) = .ok cfg →
      (cfg.projects.map (·.webhookPath)).Nodup ∧
        ∀ p ∈ cfg.projects, p.executeCommand ≠ "") ∧
    ((¬ (cand.projects.map (·.webhookPath)).Nodup ∨
        ∃ p ∈ cand.projects, p.executeCommand = "") →
      ∃ e, loadConfig (.ok cand) = .error e) := by
  constructor
  · intro cfg hok
    have hv := loadConfig_ok_validate cand cfg hok
    obtain ⟨hnd, _, hfields⟩ := validateProjects_ok [] 0 cfg.projects hv
    exact ⟨hnd, fun p hp => (hfields p hp).2.2⟩
  · intro hbad
    refine loadConfig_error_of_bad cand ?_
    rcases hbad with hbad | ⟨p, hp, hbad⟩
    · exact Or.inl hbad
    · exact Or.inr ⟨p, hp, Or.inr (Or.inr hbad)⟩

/-- C7 witness: the rejection half evaluated at the duplicate-path candidate,
and the invariant half evaluated at the valid C1 candidate. -/
theorem C7_snapshot_invariants_witness :
    (∃ e, loadConfig (.ok c6DupConfig) = .error e) ∧
    ((c1NewConfig.projects.map (·.webhookPath)).Nodup ∧
      ∀ p ∈ c1NewConfig.projects, p.executeCommand ≠ "") :=
  ⟨(C7_snapshot_invariants c6DupConfig).2 (Or.inl (by decide)),
   (C7_snapshot_invariants c1NewConfig).1 c1NewConfig rfl⟩

/-- C10: a configuration in which some project has an empty `webhook_path`
or an empty `webhook_secret` is rejected by the loader, and consequently a
hot reload of such a candidate never replaces the active snapshot. -/
theorem C10_required_fields_rejected (cand : Config)
    (hbad : ∃ p ∈ cand.projects, p.webhookPath = "" ∨ p.webhookSecret = "") :
    (∃ e, loadConfig (.ok cand) = .error e) ∧
    ∀ st : CMState, (reloadConfig st (.ok cand)).1 = st := by
  have herr : ∃ e, loadConfig (.ok cand) = .error e := by
    refine loadConfig_error_of_bad cand (Or.inr ?_)
    obtain ⟨p, hp, hbad⟩ := hbad
    rcases hbad with hbad | hbad
    · exact ⟨p, hp, Or.inl hbad⟩
    · exact ⟨p, hp, Or.inr (Or.inl hbad)⟩
  refine ⟨herr, fun st => ?_⟩
  obtain ⟨e, he⟩ := herr
  rw [reloadConfig_of_loadError st (.ok cand) e he]

/-- A candidate with an empty webhook secret for the C10 witness. -/
def c10NoSecretConfig : Config :=
  { listenPort := 8080,
    projects := [{ name := "NoSecret", webhookPath := "/hooks/x",
                   webhookSecret := "", executeCommand := "echo x" }] }

/-- C10 witness: the empty-secret candidate is rejected and a hot reload of
it leaves the C1 manager state unchanged. -/
theorem C10_required_fields_rejected_witness :
    (∃ e, loadConfig (.ok c10NoSecretConfig) = .error e) ∧
    (reloadConfig c1Sys.cm (.ok c10NoSecretConfig)).1 = c1Sys.cm :=
  ⟨(C10_required_fields_rejected c10NoSecretConfig (by decide)).1,
   (C10_required_fields_rejected c10NoSecretConfig (by decide)).2 c1Sys.cm⟩

/-! ## Deployment executor (the `Deployer` with the in-flight counter)

`Deploy` runs one deployment attempt: non-blocking per-project lock, the
in-flight `activeBuilds` counter, optional git clone/pull, the shell command
under an optional timeout, email notification, and the deferred block that
releases the lock, decrements the counter and processes a pending reload
when the counter reaches zero.  External outcomes (lock contention, the
`.git` probe, the git commands, the spawned process) are inputs; the actions
taken are recorded as `DeployEvent`s in order. -/

/-- `DeployResult` from the deployer file.  Timestamps are abstract clock
readings (`time.Now()` at entry and at exit). -/
structure DeployResult where
  success : Bool := false
  skipped : Bool := false
  output : String := ""
  error : String := ""
  startTime : Nat := 0
  endTime : Nat := 0
deriving DecidableEq, Repr

/-- Observable actions of one `Deploy` call, in execution order.  Logger
calls are not recorded: they carry no state. -/
inductive DeployEvent where
  | incrementCounter
  | gitClone (branch repo localPath runAsUser runAsGroup : String)
  | gitPull (localPath runAsUser runAsGroup : String)
  | executeCmd (cmd runAsUser runAsGroup : String)
  | killProcessGroup
  | notify (project : ProjectConfig) (result : DeployResult) (trigger : String)
  | unlock
  | decrementCounter
  | processPendingReload
deriving DecidableEq, Repr

/-- The error returned by `executeCommand`, keeping the dynamic distinction
between a `cmd.Start` failure, the timeout error built with `fmt.Errorf`,
and the error `cmd.Wait` reports for a non-zero exit. -/
inductive ExecErr where
  | startFailed (msg : String)
  | timedOut (seconds : Nat)
  | exitError (msg : String)
deriving DecidableEq, Repr

/-- `err.Error()` for the three shapes of `executeCommand` errors. -/
def ExecErr.message : ExecErr → String
  | .startFailed m => m
  | .timedOut s => "command timed out after " ++ toString s ++ " seconds"
  | .exitError m => m

/-- Outcome of the one spawned process inside `executeCommand`: whether
`cmd.Start` failed, whether the context fired before `cmd.Wait` delivered
(the timeout path), and the captured streams / wait error otherwise. -/
structure ExecEnv where
  startErr : Option String := none
  timedOut : Bool := false
  stdout : String := ""
  stderr : String := ""
  exitErr : Option String := none
deriving DecidableEq, Repr

/-- Outcomes of everything external to one `Deploy` call. -/
structure DeployEnv where
  /-- `lock.TryLock()` succeeds (no deployment of this project in flight). -/
  lockFree : Bool := true
  /-- the `os.Stat(localPath/.git)` probe of `isGitRepo` finds a directory. -/
  repoProbe : Bool := false
  /-- `ensureParentDirExists` inside `gitClone` succeeds. -/
  parentDirOk : Bool := true
  parentDirErr : String := ""
  /-- the `git clone` command exits 0. -/
  cloneOk : Bool := true
  /-- the formatted `err: output` text when the clone command fails. -/
  cloneErr : String := ""
  /-- the `git pull` command exits 0. -/
  pullOk : Bool := true
  pullErr : String := ""
  exec : ExecEnv := {}
  /-- `d.notifier != nil`. -/
  hasNotifier : Bool := false
  /-- `d.configManager != nil`. -/
  hasConfigManager : Bool := false
  /-- value of the `activeBuilds` counter contributed by the other in-flight
  deployments, i.e. what the counter reads after this call's decrement. -/
  othersActive : Nat := 0
deriving DecidableEq, Repr

/-- `getEffectiveRunAs`: empty `run_as_user`/`run_as_group` default to
`www-data`. -/
def getEffectiveRunAs (p : ProjectConfig) : String × String :=
  ((if p.runAsUser = "" then "www-data" else p.runAsUser),
   (if p.runAsGroup = "" then "www-data" else p.runAsGroup))

/-- `isGitRepo`: an empty path is never a repository; otherwise the answer
is the filesystem probe for a `.git` directory. -/
def isGitRepo (path : String) (probe : Bool) : Bool :=
  if path = "" then false else probe

/-- `gitClone`: ensure the parent directory exists (failure short-circuits
before any git command runs), then run
`git clone --branch <branch> <repo> <localPath>` under the effective
identity; a failing command yields the formatted `err: output` error. -/
def gitClone (p : ProjectConfig) (env : DeployEnv) (u g : String) :
    Option String × List DeployEvent :=
  if env.parentDirOk = false then
    (some ("failed to create parent directory: " ++ env.parentDirErr), [])
  else if env.cloneOk then
    (none, [DeployEvent.gitClone p.gitBranch p.gitRepo p.localPath u g])
  else
    (some env.cloneErr,
     [DeployEvent.gitClone p.gitBranch p.gitRepo p.localPath u g])

/-- `gitPull`: run `git pull` in the project's local path under the
effective identity. -/
def gitPull (p : ProjectConfig) (env : DeployEnv) (u g : String) :
    Option String × List DeployEvent :=
  if env.pullOk then (none, [DeployEvent.gitPull p.localPath u g])
  else (some env.pullErr, [DeployEvent.gitPull p.localPath u g])

/-- `handleGitOperations`: compute the effective run-as identity once, then
clone when the working copy is absent (wrapping failures as
`git clone failed: …`), else pull only when `git_update` is set (wrapping
failures as `git pull failed: …`), else do nothing. -/
def handleGitOperations (p : ProjectConfig) (env : DeployEnv) :
    Option String × List DeployEvent :=
  let (u, g) := getEffectiveRunAs p
  if isGitRepo p.localPath env.repoProbe = false then
    match gitClone p env u g with
    | (some e, evs) => (some ("git clone failed: " ++ e), evs)
    | (none, evs) => (none, evs)
  else if p.gitUpdate then
    match gitPull p env u g with
    | (some e, evs) => (some ("git pull failed: " ++ e), evs)
    | (none, evs) => (none, evs)
  else (none, [])

/-- `executeCommand`: run the project's command under the effective
identity; if the (optional) timeout context fires first, kill the process
group, wait for the reap, and return the raw concatenation
`stdout.String() + stderr.String()` with the timeout error; on normal
completion return stdout, then — when stderr is non-empty — a separating
newline if stdout was non-empty, then stderr, with `cmd.Wait`'s error. -/
def executeCommand (p : ProjectConfig) (env : ExecEnv) :
    String × Option ExecErr × List DeployEvent :=
  let (u, g) := getEffectiveRunAs p
  let ev := DeployEvent.executeCmd p.executeCommand u g
  match env.startErr with
  | some m => ("", some (ExecErr.startFailed m), [ev])
  | none =>
    if env.timedOut then
      (env.stdout ++ env.stderr, some (ExecErr.timedOut p.timeoutSeconds),
       [ev, DeployEvent.killProcessGroup])
    else
      let output := env.stdout
      let output :=
        if 0 < env.stderr.length then
          (if output ≠ "" then output ++ "\n" else output) ++ env.stderr
        else output
      (output, env.exitErr.map ExecErr.exitError, [ev])

/-- `sendNotification`: a no-op without a notifier; otherwise one
notification with the project, the result and the trigger source
(notifier failures are only logged). -/
def notifyEvents (p : ProjectConfig) (res : DeployResult) (trigger : String)
    (env : DeployEnv) : List DeployEvent :=
  if env.hasNotifier then [DeployEvent.notify p res trigger] else []

/-- The body of `Deploy` between the successful lock acquisition and the
return: git operations when `git_repo` is configured (an error ends the
attempt with the message in `result.Error` and a notification, before any
command execution), otherwise command execution, result construction and
notification. -/
def deployBody (p : ProjectConfig) (trigger : String) (env : DeployEnv)
    (t0 t1 : Nat) : DeployResult × List DeployEvent :=
  let gitStep : Option String × List DeployEvent :=
    if p.gitRepo ≠ "" then handleGitOperations p env else (none, [])
  match gitStep with
  | (some e, gevs) =>
    let res : DeployResult := { startTime := t0, error := e, endTime := t1 }
    (res, gevs ++ notifyEvents p res trigger env)
  | (none, gevs) =>
    let (output, err, eevs) := executeCommand p env.exec
    let res : DeployResult :=
      match err with
      | some ex =>
        { startTime := t0, output := output, endTime := t1,
          success := false, error := ex.message }
      | none =>
        { startTime := t0, output := output, endTime := t1, success := true }
    (res, gevs ++ eevs ++ notifyEvents p res trigger env)

/-- `Deploy`: take the project's lock non-blockingly — on contention return
a `Skipped` result at once; otherwise increment the in-flight counter, run
the body, and on every exit path release the lock, decrement the counter,
and — when the decrement reaches zero and a configuration manager is wired —
process a pending deferred reload. -/
def deploy (p : ProjectConfig) (trigger : String) (env : DeployEnv)
    (t0 t1 : Nat) : DeployResult × List DeployEvent :=
  if env.lockFree = false then
    ({ startTime := t0, skipped := true, endTime := t1 }, [])
  else
    let (res, evs) := deployBody p trigger env t0 t1
    (res,
      DeployEvent.incrementCounter :: evs ++
        [DeployEvent.unlock, DeployEvent.decrementCounter] ++
        (if env.othersActive = 0 && env.hasConfigManager then
          [DeployEvent.processPendingReload] else []))

/-! ## Shared lemmas about the deployer -/

/-- A non-empty string is exactly a string of positive length (bridges the
code's `stderr.Len() > 0` check and the spec's "non-empty"). -/
theorem string_length_pos_iff (s : String) : 0 < s.length ↔ s ≠ "" := by
  rcases s with ⟨data⟩
  cases data with
  | nil => simp [String.length]
  | cons c cs =>
    simp only [String.length]
    constructor
    · intro _ h
      have : (String.mk (c :: cs)).data = (String.mk "".data).data := by rw [← h]
      simp at this
    · intro _; simp

/-- Every event `gitClone` emits is the one clone invocation. -/
theorem gitClone_events (p : ProjectConfig) (env : DeployEnv) (u g : String) :
    ∀ ev ∈ (gitClone p env u g).2,
      ev = DeployEvent.gitClone p.gitBranch p.gitRepo p.localPath u g := by
  unfold gitClone
  split
  · simp
  · split <;> simp

/-- Every event `gitPull` emits is the one pull invocation. -/
theorem gitPull_events (p : ProjectConfig) (env : DeployEnv) (u g : String) :
    ∀ ev ∈ (gitPull p env u g).2,
      ev = DeployEvent.gitPull p.localPath u g := by
  unfold gitPull
  split <;> simp

/-- Every event of `handleGitOperations` is the clone or the pull invocation
under the project's effective run-as identity. -/
theorem handleGitOperations_events (p : ProjectConfig) (env : DeployEnv) :
    ∀ ev ∈ (handleGitOperations p env).2,
      ev = DeployEvent.gitClone p.gitBranch p.gitRepo p.localPath
        (getEffectiveRunAs p).1 (getEffectiveRunAs p).2 ∨
      ev = DeployEvent.gitPull p.localPath
        (getEffectiveRunAs p).1 (getEffectiveRunAs p).2 := by
  intro ev hev
  unfold handleGitOperations at hev
  rcases hug : getEffectiveRunAs p with ⟨u, g⟩
  rw [hug] at hev
  simp only at hev
  split at hev
  · rcases hc : gitClone p env u g with ⟨e?, evs⟩
    rw [hc] at hev
    have := gitClone_events p env u g
    rw [hc] at this
    cases e? <;> simp only at hev <;>
      exact Or.inl (by
        have h := this ev hev
        rw [h])
  · split at hev
    · rcases hc : gitPull p env u g with ⟨e?, evs⟩
      rw [hc] at hev
      have := gitPull_events p env u g
      rw [hc] at this
      cases e? <;> simp only at hev <;>
        exact Or.inr (by
          have h := this ev hev
          rw [h])
    · simp at hev

/-- `executeCommand` when `cmd.Start` fails. -/
theorem executeCommand_startErr (p : ProjectConfig) (env : ExecEnv)
    (m : String) (h : env.startErr = some m) :
    executeCommand p env = ("", some (ExecErr.startFailed m),
      [DeployEvent.executeCmd p.executeCommand
        (getEffectiveRunAs p).1 (getEffectiveRunAs p).2]) := by
  simp [executeCommand, getEffectiveRunAs, h]

/-- `executeCommand` on the timeout path. -/
theorem executeCommand_timedOut (p : ProjectConfig) (env : ExecEnv)
    (h : env.startErr = none) (ht : env.timedOut = true) :
    executeCommand p env = (env.stdout ++ env.stderr,
      some (ExecErr.timedOut p.timeoutSeconds),
      [DeployEvent.executeCmd p.executeCommand
        (getEffectiveRunAs p).1 (getEffectiveRunAs p).2,
       DeployEvent.killProcessGroup]) := by
  simp [executeCommand, getEffectiveRunAs, h, ht]

/-- `executeCommand` on normal completion. -/
theorem executeCommand_completed (p : ProjectConfig) (env : ExecEnv)
    (h : env.startErr = none) (ht : env.timedOut = false) :
    executeCommand p env =
      ((if 0 < env.stderr.length then
          (if env.stdout ≠ "" then env.stdout ++ "\n" else env.stdout) ++
            env.stderr
        else env.stdout),
       env.exitErr.map ExecErr.exitError,
       [DeployEvent.executeCmd p.executeCommand
         (getEffectiveRunAs p).1 (getEffectiveRunAs p).2]) := by
  simp [executeCommand, getEffectiveRunAs, h, ht]

/-- Every event of `executeCommand` is the one command invocation under the
project's effective run-as identity, or the process-group kill on the
timeout path. -/
theorem executeCommand_events (p : ProjectConfig) (env : ExecEnv) :
    ∀ ev ∈ (executeCommand p env).2.2,
      ev = DeployEvent.executeCmd p.executeCommand
        (getEffectiveRunAs p).1 (getEffectiveRunAs p).2 ∨
      ev = DeployEvent.killProcessGroup := by
  intro ev hev
  rcases hs : env.startErr with _ | m
  · rcases ht : env.timedOut with _ | _
    · rw [executeCommand_completed p env hs ht] at hev
      simp at hev
      exact Or.inl hev
    · rw [executeCommand_timedOut p env hs ht] at hev
      simpa using hev
  · rw [executeCommand_startErr p env m hs] at hev
    simp at hev
    exact Or.inl hev

/-- `executeCommand` always records the command invocation. -/
theorem executeCommand_mem (p : ProjectConfig) (env : ExecEnv) :
    DeployEvent.executeCmd p.executeCommand
      (getEffectiveRunAs p).1 (getEffectiveRunAs p).2 ∈
      (executeCommand p env).2.2 := by
  rcases hs : env.startErr with _ | m
  · rcases ht : env.timedOut with _ | _
    · rw [executeCommand_completed p env hs ht]; simp
    · rw [executeCommand_timedOut p env hs ht]; simp
  · rw [executeCommand_startErr p env m hs]; simp

/-- When the lock is free, `Deploy` is the body's result, and the trace is
the counter increment, the body's events, then the deferred block: unlock,
decrement, and the pending-reload processing exactly when the decremented
counter reads zero with a configuration manager wired. -/
theorem deploy_unfold (p : ProjectConfig) (trigger : String) (env : DeployEnv)
    (t0 t1 : Nat) (h : env.lockFree = true) :
    deploy p trigger env t0 t1 =
      ((deployBody p trigger env t0 t1).1,
        DeployEvent.incrementCounter :: (deployBody p trigger env t0 t1).2 ++
          [DeployEvent.unlock, DeployEvent.decrementCounter] ++
          (if env.othersActive = 0 && env.hasConfigManager then
            [DeployEvent.processPendingReload] else [])) := by
  rcases hb : deployBody p trigger env t0 t1 with ⟨res, evs⟩
  simp [deploy, h, hb]

/-- Lock/counter bookkeeping events, as opposed to the work the body does. -/
def DeployEvent.isBookkeeping : DeployEvent → Bool
  | .incrementCounter => true
  | .unlock => true
  | .decrementCounter => true
  | .processPendingReload => true
  | _ => false

/-- The body of `Deploy` when the git step fails: the result carries the git
error and the end timestamp, and the trace is the git events followed by the
notification (no command execution). -/
theorem deployBody_gitError (p : ProjectConfig) (trigger : String)
    (env : DeployEnv) (t0 t1 : Nat) (e : String) (gevs : List DeployEvent)
    (hr : p.gitRepo ≠ "") (hg : handleGitOperations p env = (some e, gevs)) :
    deployBody p trigger env t0 t1 =
      ({ startTime := t0, error := e, endTime := t1 },
       gevs ++ notifyEvents p { startTime := t0, error := e, endTime := t1 }
         trigger env) := by
  simp [deployBody, hr, hg]

/-- The body of `Deploy` when the git step succeeds (or is skipped because
no repository is configured): the trace is the git events, the command
execution events, then the notification. -/
theorem deployBody_gitOk (p : ProjectConfig) (trigger : String)
    (env : DeployEnv) (t0 t1 : Nat) (gevs : List DeployEvent)
    (hg : (if p.gitRepo ≠ "" then handleGitOperations p env
      else ((none : Option String), ([] : List DeployEvent))) = (none, gevs)) :
    (deployBody p trigger env t0 t1).2 =
      gevs ++ (executeCommand p env.exec).2.2 ++
        notifyEvents p (deployBody p trigger env t0 t1).1 trigger env := by
  rcases hx : executeCommand p env.exec with ⟨o, err, eevs⟩
  rcases err with _ | ex <;> simp [deployBody, hg, hx]

/-- The result of the body when the git step succeeds and the command
completes: output and error come from `executeCommand`, success is the
absence of an error, and the timestamps bracket the call. -/
theorem deployBody_gitOk_result (p : ProjectConfig) (trigger : String)
    (env : DeployEnv) (t0 t1 : Nat) (gevs : List DeployEvent)
    (hg : (if p.gitRepo ≠ "" then handleGitOperations p env
      else ((none : Option String), ([] : List DeployEvent))) = (none, gevs)) :
    (deployBody p trigger env t0 t1).1 =
      (match (executeCommand p env.exec).2.1 with
       | some ex =>
         { startTime := t0, output := (executeCommand p env.exec).1,
           endTime := t1, success := false, error := ex.message }
       | none =>
         { startTime := t0, output := (executeCommand p env.exec).1,
           endTime := t1, success := true }) := by
  rcases hx : executeCommand p env.exec with ⟨o, err, eevs⟩
  rcases err with _ | ex <;> simp [deployBody, hg, hx]

/-- Whatever the branch, the body's trace ends with the notification for the
body's own result. -/
theorem deployBody_notify (p : ProjectConfig) (trigger : String)
    (env : DeployEnv) (t0 t1 : Nat) (h : env.hasNotifier = true) :
    DeployEvent.notify p (deployBody p trigger env t0 t1).1 trigger ∈
      (deployBody p trigger env t0 t1).2 := by
  rcases hg : (if p.gitRepo ≠ "" then handleGitOperations p env
      else ((none : Option String), ([] : List DeployEvent))) with ⟨e?, gevs⟩
  rcases e? with _ | e
  · rw [deployBody_gitOk p trigger env t0 t1 gevs hg]
    simp [notifyEvents, h]
  · by_cases hr : p.gitRepo ≠ ""
    · rw [if_pos hr] at hg
      rw [deployBody_gitError p trigger env t0 t1 e gevs hr hg]
      simp [notifyEvents, h]
    · rw [if_neg hr] at hg
      simp at hg

/-- Events of the notification step are notifications. -/
theorem notifyEvents_shape (p : ProjectConfig) (res : DeployResult)
    (trigger : String) (env : DeployEnv) :
    ∀ ev ∈ notifyEvents p res trigger env,
      ev = DeployEvent.notify p res trigger := by
  unfold notifyEvents
  split <;> simp

/-- The body of `Deploy` performs no lock or counter bookkeeping: that is
done exclusively by the acquisition prologue and the deferred epilogue. -/
theorem deployBody_events (p : ProjectConfig) (trigger : String)
    (env : DeployEnv) (t0 t1 : Nat) :
    ∀ ev ∈ (deployBody p trigger env t0 t1).2,
      ev.isBookkeeping = false := by
  intro ev hev
  rcases hg : (if p.gitRepo ≠ "" then handleGitOperations p env
      else ((none : Option String), ([] : List DeployEvent))) with ⟨e?, gevs⟩
  have hgevs : ∀ e ∈ gevs, DeployEvent.isBookkeeping e = false := by
    intro e he
    by_cases hr : p.gitRepo ≠ ""
    · rw [if_pos hr] at hg
      have := handleGitOperations_events p env e (by rw [hg]; exact he)
      rcases this with h | h <;> rw [h] <;> rfl
    · rw [if_neg hr] at hg
      cases hg; cases he
  rcases e? with _ | e
  · rw [deployBody_gitOk p trigger env t0 t1 gevs hg] at hev
    rcases List.mem_append.mp hev with hev | hev
    · rcases List.mem_append.mp hev with hev | hev
      · exact hgevs ev hev
      · rcases executeCommand_events p env.exec ev hev with h | h <;>
          rw [h] <;> rfl
    · rw [notifyEvents_shape p _ trigger env ev hev]; rfl
  · by_cases hr : p.gitRepo ≠ ""
    · rw [if_pos hr] at hg
      rw [deployBody_gitError p trigger env t0 t1 e gevs hr hg] at hev
      simp only at hev
      rcases List.mem_append.mp hev with hev | hev
      · exact hgevs ev hev
      · rw [notifyEvents_shape p _ trigger env ev hev]; rfl
    · rw [if_neg hr] at hg
      simp at hg

/-! ## Claims about the deployment executor -/

/-- `occursBefore a b tr`: some occurrence of `a` in `tr` is strictly
followed, later in `tr`, by an occurrence of `b`. -/
def occursBefore (a b : DeployEvent) : List DeployEvent → Bool
  | [] => false
  | x :: rest =>
    if x = a then rest.any (fun y => decide (y = b))
    else occursBefore a b rest

/-- Concrete deployment used by several scenarios: no repository configured,
one plain command. -/
def cProject : ProjectConfig :=
  { name := "Demo", webhookPath := "/hooks/demo", webhookSecret := "s",
    executeCommand := "echo hi" }

/-- Environment of the C2 scenario: the lock is free and everything
succeeds. -/
def c2Env : DeployEnv := {}

/-- C2 counterexample: the claim puts the counter decrement before the lock
release inside the deferred block; in the code the deferred closure runs
`lock.Unlock()` first and decrements `activeBuilds` after.  At this input
each of the two events occurs exactly once, the unlock occurs before the
decrement, and the decrement never occurs before the unlock. -/
theorem C2_unlock_before_decrement_counterexample :
    occursBefore DeployEvent.unlock DeployEvent.decrementCounter
      (deploy cProject "WEBHOOK" c2Env 0 1).2 = true ∧
    occursBefore DeployEvent.decrementCounter DeployEvent.unlock
      (deploy cProject "WEBHOOK" c2Env 0 1).2 = false ∧
    (deploy cProject "WEBHOOK" c2Env 0 1).2.count DeployEvent.unlock = 1 ∧
    (deploy cProject "WEBHOOK" c2Env 0 1).2.count
      DeployEvent.decrementCounter = 1 := by
  refine ⟨?_, ?_, ?_, ?_⟩ <;> decide

/-- C2 as amended: on every exit path of a deploy call that acquired its
lock, the deferred block runs the lock release and then the counter
decrement (nothing before them touches the lock or the counter except the
initial increment), and exactly when the decrement yields zero and a
configuration manager is wired, the pending deferred reload is processed
immediately. -/
theorem C2_cleanup_order_amended (p : ProjectConfig) (trigger : String)
    (env : DeployEnv) (t0 t1 : Nat) (h : env.lockFree = true) :
    ∃ pre, (deploy p trigger env t0 t1).2 =
        DeployEvent.incrementCounter :: pre ++
          [DeployEvent.unlock, DeployEvent.decrementCounter] ++
          (if env.othersActive = 0 && env.hasConfigManager then
            [DeployEvent.processPendingReload] else []) ∧
      ∀ ev ∈ pre, ev.isBookkeeping = false := by
  refine ⟨(deployBody p trigger env t0 t1).2, ?_,
    deployBody_events p trigger env t0 t1⟩
  rw [deploy_unfold p trigger env t0 t1 h]

/-- C2 amended witness at the concrete scenario. -/
theorem C2_cleanup_order_amended_witness :
    c2Env.lockFree = true ∧
    ∃ pre, (deploy cProject "WEBHOOK" c2Env 0 1).2 =
        DeployEvent.incrementCounter :: pre ++
          [DeployEvent.unlock, DeployEvent.decrementCounter] ++
          (if c2Env.othersActive = 0 && c2Env.hasConfigManager then
            [DeployEvent.processPendingReload] else []) ∧
      ∀ ev ∈ pre, ev.isBookkeeping = false :=
  ⟨rfl, C2_cleanup_order_amended cProject "WEBHOOK" c2Env 0 1 rfl⟩

/-- Environment of the C3 scenario: the project lock is already held. -/
def c3Env : DeployEnv := { lockFree := false }

/-- C3: when the non-blocking acquisition fails, `Deploy` returns a
`Skipped=true` result whose timestamps are the entry and exit clock
readings, performs no action at all (empty trace: no git operation, no
command execution, no queueing or retry), and never increments the
in-flight counter. -/
theorem C3_lock_contention_skipped (p : ProjectConfig) (trigger : String)
    (env : DeployEnv) (t0 t1 : Nat) (h : env.lockFree = false) :
    (deploy p trigger env t0 t1).1.skipped = true ∧
    (deploy p trigger env t0 t1).1.startTime = t0 ∧
    (deploy p trigger env t0 t1).1.endTime = t1 ∧
    (deploy p trigger env t0 t1).2 = [] ∧
    DeployEvent.incrementCounter ∉ (deploy p trigger env t0 t1).2 ∧
    (∀ b r l u g, DeployEvent.gitClone b r l u g ∉
      (deploy p trigger env t0 t1).2) ∧
    (∀ l u g, DeployEvent.gitPull l u g ∉ (deploy p trigger env t0 t1).2) ∧
    (∀ c u g, DeployEvent.executeCmd c u g ∉
      (deploy p trigger env t0 t1).2) := by
  simp [deploy, h]

/-- C3 witness: the contended scenario evaluated concretely. -/
theorem C3_lock_contention_skipped_witness :
    c3Env.lockFree = false ∧
    (deploy cProject "WEBHOOK" c3Env 3 7).1.skipped = true ∧
    (deploy cProject "WEBHOOK" c3Env 3 7).1.startTime = 3 ∧
    (deploy cProject "WEBHOOK" c3Env 3 7).1.endTime = 7 ∧
    (deploy cProject "WEBHOOK" c3Env 3 7).2 = [] :=
  ⟨rfl,
   (C3_lock_contention_skipped cProject "WEBHOOK" c3Env 3 7 rfl).1,
   (C3_lock_contention_skipped cProject "WEBHOOK" c3Env 3 7 rfl).2.1,
   (C3_lock_contention_skipped cProject "WEBHOOK" c3Env 3 7 rfl).2.2.1,
   (C3_lock_contention_skipped cProject "WEBHOOK" c3Env 3 7 rfl).2.2.2.1⟩

/-- Environment of the C4 counterexample: lock contention with a configured
notifier. -/
def c4Env : DeployEnv := { lockFree := false, hasNotifier := true }

/-- C4 counterexample: the claim says every returned result — including a
skipped one — is notified when a notifier is configured; in the code the
lock-contention path returns before `sendNotification`, so the skipped
result produces no notification. -/
theorem C4_skipped_result_not_notified :
    c4Env.hasNotifier = true ∧
    (deploy cProject "WEBHOOK" c4Env 0 1).1.skipped = true ∧
    ∀ q res s, DeployEvent.notify q res s ∉
      (deploy cProject "WEBHOOK" c4Env 0 1).2 := by
  refine ⟨rfl, rfl, ?_⟩
  intro q res s
  simp [deploy, c4Env]

/-- C4 as amended: for every deploy call that acquires its lock, the
notification collaborator, when configured, is invoked with the project,
the returned result and the trigger classification, whatever the outcome;
a call skipped on lock contention sends no notification. -/
theorem C4_notification_after_lock_acquired (p : ProjectConfig)
    (trigger : String) (env : DeployEnv) (t0 t1 : Nat)
    (hn : env.hasNotifier = true) :
    (env.lockFree = true →
      DeployEvent.notify p (deploy p trigger env t0 t1).1 trigger ∈
        (deploy p trigger env t0 t1).2) ∧
    (env.lockFree = false →
      ∀ q res s, DeployEvent.notify q res s ∉
        (deploy p trigger env t0 t1).2) := by
  constructor
  · intro hl
    rw [deploy_unfold p trigger env t0 t1 hl]
    have hmem := deployBody_notify p trigger env t0 t1 hn
    simp [List.mem_append, hmem]
  · intro hl q res s
    simp [deploy, hl]

/-- Environment of the C4 amended witness: free lock, notifier configured. -/
def c4OkEnv : DeployEnv := { hasNotifier := true }

/-- C4 amended witness at the concrete scenario. -/
theorem C4_notification_after_lock_acquired_witness :
    c4OkEnv.hasNotifier = true ∧
    DeployEvent.notify cProject (deploy cProject "WEBHOOK" c4OkEnv 0 1).1
      "WEBHOOK" ∈ (deploy cProject "WEBHOOK" c4OkEnv 0 1).2 :=
  ⟨rfl,
   (C4_notification_after_lock_acquired cProject "WEBHOOK" c4OkEnv 0 1
     rfl).1 rfl⟩

/-- Working copy absent, parent-directory creation fails: the clone step
aborts before the git command runs. -/
theorem handleGitOperations_absent_noParent (p : ProjectConfig)
    (env : DeployEnv) (habs : isGitRepo p.localPath env.repoProbe = false)
    (hpd : env.parentDirOk = false) :
    handleGitOperations p env =
      (some ("git clone failed: " ++
        ("failed to create parent directory: " ++ env.parentDirErr)), []) := by
  simp [handleGitOperations, gitClone, getEffectiveRunAs, habs, hpd]

/-- Working copy absent, clone succeeds. -/
theorem handleGitOperations_absent_cloneOk (p : ProjectConfig)
    (env : DeployEnv) (habs : isGitRepo p.localPath env.repoProbe = false)
    (hpd : env.parentDirOk = true) (hc : env.cloneOk = true) :
    handleGitOperations p env =
      (none, [DeployEvent.gitClone p.gitBranch p.gitRepo p.localPath
        (getEffectiveRunAs p).1 (getEffectiveRunAs p).2]) := by
  simp [handleGitOperations, gitClone, getEffectiveRunAs, habs, hpd, hc]

/-- Working copy absent, clone command fails. -/
theorem handleGitOperations_absent_cloneFail (p : ProjectConfig)
    (env : DeployEnv) (habs : isGitRepo p.localPath env.repoProbe = false)
    (hpd : env.parentDirOk = true) (hc : env.cloneOk = false) :
    handleGitOperations p env =
      (some ("git clone failed: " ++ env.cloneErr),
       [DeployEvent.gitClone p.gitBranch p.gitRepo p.localPath
         (getEffectiveRunAs p).1 (getEffectiveRunAs p).2]) := by
  simp [handleGitOperations, gitClone, getEffectiveRunAs, habs, hpd, hc]

/-- Working copy present, update flag set, pull succeeds. -/
theorem handleGitOperations_present_pullOk (p : ProjectConfig)
    (env : DeployEnv) (hpres : isGitRepo p.localPath env.repoProbe = true)
    (hu : p.gitUpdate = true) (hp : env.pullOk = true) :
    handleGitOperations p env =
      (none, [DeployEvent.gitPull p.localPath
        (getEffectiveRunAs p).1 (getEffectiveRunAs p).2]) := by
  simp [handleGitOperations, gitPull, getEffectiveRunAs, hpres, hu, hp]

/-- Working copy present, update flag set, pull fails. -/
theorem handleGitOperations_present_pullFail (p : ProjectConfig)
    (env : DeployEnv) (hpres : isGitRepo p.localPath env.repoProbe = true)
    (hu : p.gitUpdate = true) (hp : env.pullOk = false) :
    handleGitOperations p env =
      (some ("git pull failed: " ++ env.pullErr),
       [DeployEvent.gitPull p.localPath
         (getEffectiveRunAs p).1 (getEffectiveRunAs p).2]) := by
  simp [handleGitOperations, gitPull, getEffectiveRunAs, hpres, hu, hp]

/-- Working copy present, update flag unset: no git operation at all. -/
theorem handleGitOperations_present_noUpdate (p : ProjectConfig)
    (env : DeployEnv) (hpres : isGitRepo p.localPath env.repoProbe = true)
    (hu : p.gitUpdate = false) :
    handleGitOperations p env = (none, []) := by
  simp [handleGitOperations, getEffectiveRunAs, hpres, hu]

/-- Membership in a deploy trace decomposed into the prologue, the body and
the deferred epilogue. -/
theorem deploy_trace_mem (p : ProjectConfig) (trigger : String)
    (env : DeployEnv) (t0 t1 : Nat) (hl : env.lockFree = true)
    (ev : DeployEvent) :
    ev ∈ (deploy p trigger env t0 t1).2 ↔
      ev = DeployEvent.incrementCounter ∨
      ev ∈ (deployBody p trigger env t0 t1).2 ∨
      ev = DeployEvent.unlock ∨ ev = DeployEvent.decrementCounter ∨
      ((env.othersActive = 0 && env.hasConfigManager) = true ∧
        ev = DeployEvent.processPendingReload) := by
  rw [deploy_unfold p trigger env t0 t1 hl]
  by_cases hc : (env.othersActive = 0 && env.hasConfigManager) = true <;>
    simp [hc]

/-- With the lock acquired, the returned result is the body's result. -/
theorem deploy_result_eq_body (p : ProjectConfig) (trigger : String)
    (env : DeployEnv) (t0 t1 : Nat) (hl : env.lockFree = true) :
    (deploy p trigger env t0 t1).1 = (deployBody p trigger env t0 t1).1 := by
  rw [deploy_unfold p trigger env t0 t1 hl]

/-- Body events appear in the deploy trace. -/
theorem deploy_mem_of_body (p : ProjectConfig) (trigger : String)
    (env : DeployEnv) (t0 t1 : Nat) (hl : env.lockFree = true)
    (ev : DeployEvent) (h : ev ∈ (deployBody p trigger env t0 t1).2) :
    ev ∈ (deploy p trigger env t0 t1).2 := by
  rw [deploy_trace_mem p trigger env t0 t1 hl]
  exact Or.inr (Or.inl h)

/-- When the git step succeeds, the command invocation is in the trace. -/
theorem deploy_execCmd_mem (p : ProjectConfig) (trigger : String)
    (env : DeployEnv) (t0 t1 : Nat) (hl : env.lockFree = true)
    (gevs : List DeployEvent)
    (hg : (if p.gitRepo ≠ "" then handleGitOperations p env
      else ((none : Option String), ([] : List DeployEvent))) = (none, gevs)) :
    DeployEvent.executeCmd p.executeCommand
      (getEffectiveRunAs p).1 (getEffectiveRunAs p).2 ∈
      (deploy p trigger env t0 t1).2 := by
  refine deploy_mem_of_body p trigger env t0 t1 hl _ ?_
  rw [deployBody_gitOk p trigger env t0 t1 gevs hg]
  exact List.mem_append_left _
    (List.mem_append_right _ (executeCommand_mem p env.exec))

/-- When the git step fails, the result carries the git error, the attempt
is not a success, and the command is never executed. -/
theorem deploy_gitFail (p : ProjectConfig) (trigger : String)
    (env : DeployEnv) (t0 t1 : Nat) (hl : env.lockFree = true)
    (e : String) (gevs : List DeployEvent)
    (hr : p.gitRepo ≠ "") (hg : handleGitOperations p env = (some e, gevs)) :
    (deploy p trigger env t0 t1).1.error = e ∧
    (deploy p trigger env t0 t1).1.success = false ∧
    ∀ c u g, DeployEvent.executeCmd c u g ∉ (deploy p trigger env t0 t1).2 := by
  have hbody := deployBody_gitError p trigger env t0 t1 e gevs hr hg
  refine ⟨?_, ?_, ?_⟩
  · rw [deploy_result_eq_body p trigger env t0 t1 hl, hbody]
  · rw [deploy_result_eq_body p trigger env t0 t1 hl, hbody]
  · intro c u g hmem
    rw [deploy_trace_mem p trigger env t0 t1 hl] at hmem
    rcases hmem with h | h | h | h | ⟨_, h⟩
    · cases h
    · rw [hbody] at h
      simp only at h
      rcases List.mem_append.mp h with h | h
      · rcases handleGitOperations_events p env _ (by rw [hg]; exact h)
          with h2 | h2 <;> simp at h2
      · have h2 := notifyEvents_shape p _ trigger env _ h
        simp at h2
    · cases h
    · cases h
    · cases h

/-- When the git step contributes no events, the trace holds no
version-control operation. -/
theorem deploy_noGitEvents (p : ProjectConfig) (trigger : String)
    (env : DeployEnv) (t0 t1 : Nat) (hl : env.lockFree = true)
    (hg : (if p.gitRepo ≠ "" then handleGitOperations p env
      else ((none : Option String), ([] : List DeployEvent))) =
        (none, ([] : List DeployEvent))) :
    (∀ b r l u g, DeployEvent.gitClone b r l u g ∉
      (deploy p trigger env t0 t1).2) ∧
    (∀ l u g, DeployEvent.gitPull l u g ∉ (deploy p trigger env t0 t1).2) := by
  have hbody := deployBody_gitOk p trigger env t0 t1 [] hg
  constructor
  · intro b r l u g hmem
    rw [deploy_trace_mem p trigger env t0 t1 hl] at hmem
    rcases hmem with h | h | h | h | ⟨_, h⟩
    · cases h
    · rw [hbody] at h
      simp only [List.nil_append] at h
      rcases List.mem_append.mp h with h | h
      · rcases executeCommand_events p env.exec _ h with h2 | h2 <;> simp at h2
      · have h2 := notifyEvents_shape p _ trigger env _ h
        simp at h2
    · cases h
    · cases h
    · cases h
  · intro l u g hmem
    rw [deploy_trace_mem p trigger env t0 t1 hl] at hmem
    rcases hmem with h | h | h | h | ⟨_, h⟩
    · cases h
    · rw [hbody] at h
      simp only [List.nil_append] at h
      rcases List.mem_append.mp h with h | h
      · rcases executeCommand_events p env.exec _ h with h2 | h2 <;> simp at h2
      · have h2 := notifyEvents_shape p _ trigger env _ h
        simp at h2
    · cases h
    · cases h
    · cases h

/-- C5: the three-way source-update decision.  With no repository URL no
version-control operation runs and the command still executes; with a URL
and an absent working copy the clone at the configured branch is attempted
(whenever the parent directory could be prepared) and any failure of the
checkout step aborts before command execution with the failure as the
deployment's error; with a URL and a present working copy the refresh runs
only when the update flag is set — its failure aborts before command
execution — and with the flag unset no git operation runs at all. -/
theorem C5_source_update_three_way (p : ProjectConfig) (trigger : String)
    (env : DeployEnv) (t0 t1 : Nat) (hl : env.lockFree = true) :
    (p.gitRepo = "" →
      (∀ b r l u g, DeployEvent.gitClone b r l u g ∉
        (deploy p trigger env t0 t1).2) ∧
      (∀ l u g, DeployEvent.gitPull l u g ∉ (deploy p trigger env t0 t1).2) ∧
      DeployEvent.executeCmd p.executeCommand
        (getEffectiveRunAs p).1 (getEffectiveRunAs p).2 ∈
        (deploy p trigger env t0 t1).2) ∧
    (p.gitRepo ≠ "" → isGitRepo p.localPath env.repoProbe = false →
      (env.parentDirOk = true →
        DeployEvent.gitClone p.gitBranch p.gitRepo p.localPath
          (getEffectiveRunAs p).1 (getEffectiveRunAs p).2 ∈
          (deploy p trigger env t0 t1).2) ∧
      (env.parentDirOk = true → env.cloneOk = false →
        (deploy p trigger env t0 t1).1.error =
          "git clone failed: " ++ env.cloneErr ∧
        (deploy p trigger env t0 t1).1.success = false ∧
        ∀ c u g, DeployEvent.executeCmd c u g ∉
          (deploy p trigger env t0 t1).2) ∧
      (env.parentDirOk = false →
        (deploy p trigger env t0 t1).1.error = "git clone failed: " ++
          ("failed to create parent directory: " ++ env.parentDirErr) ∧
        ∀ c u g, DeployEvent.executeCmd c u g ∉
          (deploy p trigger env t0 t1).2) ∧
      (env.parentDirOk = true → env.cloneOk = true →
        DeployEvent.executeCmd p.executeCommand
          (getEffectiveRunAs p).1 (getEffectiveRunAs p).2 ∈
          (deploy p trigger env t0 t1).2)) ∧
    (p.gitRepo ≠ "" → isGitRepo p.localPath env.repoProbe = true →
      (p.gitUpdate = true →
        DeployEvent.gitPull p.localPath
          (getEffectiveRunAs p).1 (getEffectiveRunAs p).2 ∈
          (deploy p trigger env t0 t1).2 ∧
        (env.pullOk = false →
          (deploy p trigger env t0 t1).1.error =
            "git pull failed: " ++ env.pullErr ∧
          ∀ c u g, DeployEvent.executeCmd c u g ∉
            (deploy p trigger env t0 t1).2) ∧
        (env.pullOk = true →
          DeployEvent.executeCmd p.executeCommand
            (getEffectiveRunAs p).1 (getEffectiveRunAs p).2 ∈
            (deploy p trigger env t0 t1).2)) ∧
      (p.gitUpdate = false →
        (∀ b r l u g, DeployEvent.gitClone b r l u g ∉
          (deploy p trigger env t0 t1).2) ∧
        (∀ l u g, DeployEvent.gitPull l u g ∉
          (deploy p trigger env t0 t1).2) ∧
        DeployEvent.executeCmd p.executeCommand
          (getEffectiveRunAs p).1 (getEffectiveRunAs p).2 ∈
          (deploy p trigger env t0 t1).2)) := by
  refine ⟨?_, ?_, ?_⟩
  · intro hr0
    have hg : (if p.gitRepo ≠ "" then handleGitOperations p env
        else ((none : Option String), ([] : List DeployEvent))) =
        (none, ([] : List DeployEvent)) := if_neg (not_not_intro hr0)
    obtain ⟨hnc, hnp⟩ := deploy_noGitEvents p trigger env t0 t1 hl hg
    exact ⟨hnc, hnp, deploy_execCmd_mem p trigger env t0 t1 hl [] hg⟩
  · intro hr habs
    refine ⟨?_, ?_, ?_, ?_⟩
    · intro hpd
      rcases hc : env.cloneOk with _ | _
      · have hgo := handleGitOperations_absent_cloneFail p env habs hpd hc
        refine deploy_mem_of_body p trigger env t0 t1 hl _ ?_
        rw [deployBody_gitError p trigger env t0 t1 _ _ hr hgo]
        exact List.mem_append_left _ (List.mem_cons_self _ _)
      · have hgo := handleGitOperations_absent_cloneOk p env habs hpd hc
        refine deploy_mem_of_body p trigger env t0 t1 hl _ ?_
        rw [deployBody_gitOk p trigger env t0 t1 _ (by rw [if_pos hr, hgo])]
        exact List.mem_append_left _
          (List.mem_append_left _ (List.mem_cons_self _ _))
    · intro hpd hc
      exact deploy_gitFail p trigger env t0 t1 hl _ _ hr
        (handleGitOperations_absent_cloneFail p env habs hpd hc)
    · intro hpd
      obtain ⟨he, _, hnoexec⟩ := deploy_gitFail p trigger env t0 t1 hl _ _ hr
        (handleGitOperations_absent_noParent p env habs hpd)
      exact ⟨he, hnoexec⟩
    · intro hpd hc
      exact deploy_execCmd_mem p trigger env t0 t1 hl _
        (by rw [if_pos hr, handleGitOperations_absent_cloneOk p env habs hpd hc])
  · intro hr hpres
    constructor
    · intro hu
      refine ⟨?_, ?_, ?_⟩
      · rcases hp : env.pullOk with _ | _
        · have hgo := handleGitOperations_present_pullFail p env hpres hu hp
          refine deploy_mem_of_body p trigger env t0 t1 hl _ ?_
          rw [deployBody_gitError p trigger env t0 t1 _ _ hr hgo]
          exact List.mem_append_left _ (List.mem_cons_self _ _)
        · have hgo := handleGitOperations_present_pullOk p env hpres hu hp
          refine deploy_mem_of_body p trigger env t0 t1 hl _ ?_
          rw [deployBody_gitOk p trigger env t0 t1 _ (by rw [if_pos hr, hgo])]
          exact List.mem_append_left _
            (List.mem_append_left _ (List.mem_cons_self _ _))
      · intro hp
        obtain ⟨he, _, hnoexec⟩ := deploy_gitFail p trigger env t0 t1 hl _ _ hr
          (handleGitOperations_present_pullFail p env hpres hu hp)
        exact ⟨he, hnoexec⟩
      · intro hp
        exact deploy_execCmd_mem p trigger env t0 t1 hl _
          (by rw [if_pos hr, handleGitOperations_present_pullOk p env hpres hu hp])
    · intro hu
      have hg : (if p.gitRepo ≠ "" then handleGitOperations p env
          else ((none : Option String), ([] : List DeployEvent))) =
          (none, ([] : List DeployEvent)) := by
        rw [if_pos hr, handleGitOperations_present_noUpdate p env hpres hu]
      obtain ⟨hnc, hnp⟩ := deploy_noGitEvents p trigger env t0 t1 hl hg
      exact ⟨hnc, hnp, deploy_execCmd_mem p trigger env t0 t1 hl [] hg⟩

/-- C5 witness: a repository-configured project with an absent working copy
whose clone fails — the deployment error names the clone failure and the
command never runs. -/
def c5Project : ProjectConfig :=
  { name := "Git", webhookPath := "/hooks/git", webhookSecret := "s",
    gitRepo := "https://example.com/r.git", gitBranch := "main",
    localPath := "/srv/app", executeCommand := "make deploy" }

/-- Environment of the C5 witness: working copy absent, clone fails. -/
def c5Env : DeployEnv :=
  { repoProbe := false, cloneOk := false, cloneErr := "exit status 128" }

/-- C5 witness: the clone-failure branch evaluated concretely. -/
theorem C5_source_update_three_way_witness :
    (deploy c5Project "WEBHOOK" c5Env 0 1).1.error =
      "git clone failed: " ++ c5Env.cloneErr ∧
    (deploy c5Project "WEBHOOK" c5Env 0 1).1.success = false ∧
    ∀ c u g, DeployEvent.executeCmd c u g ∉
      (deploy c5Project "WEBHOOK" c5Env 0 1).2 :=
  ((C5_source_update_three_way c5Project "WEBHOOK" c5Env 0 1 rfl).2.1
    (by decide) rfl).2.1 rfl rfl

/-- Project of the C8 scenario: a command with a 5-second timeout. -/
def c8Project : ProjectConfig :=
  { name := "T", webhookPath := "/hooks/t", webhookSecret := "s",
    executeCommand := "sleep 60", timeoutSeconds := 5 }

/-- Process outcome of the C8 counterexample: the timeout fires with both
streams non-empty. -/
def c8Exec : ExecEnv := { timedOut := true, stdout := "out", stderr := "err" }

/-- C8 counterexample: the claim requires the separating newline between
non-empty stdout and stderr on every path including timeout; on the timeout
path the code returns `stdout.String() + stderr.String()` with no
separator. -/
theorem C8_timeout_output_no_separator_counterexample :
    c8Exec.stdout ≠ "" ∧ c8Exec.stderr ≠ "" ∧
    (executeCommand c8Project c8Exec).1 = "outerr" ∧
    (executeCommand c8Project c8Exec).1 ≠
      c8Exec.stdout ++ "\n" ++ c8Exec.stderr ∧
    (executeCommand c8Project c8Exec).2.1 = some (ExecErr.timedOut 5) :=
  ⟨by decide, by decide, rfl, by decide, rfl⟩

/-- C8 as amended: on normal completion the returned output is stdout, then
a separating newline exactly when both streams are non-empty, then stderr;
on the timeout path the captured output is still returned but as the direct
concatenation stdout-then-stderr with no separator, with the
timeout-specific error, which is distinct from any non-zero-exit error. -/
theorem C8_output_concatenation_and_timeout_error (p : ProjectConfig)
    (env : ExecEnv) (hs : env.startErr = none) :
    (env.timedOut = true →
      (executeCommand p env).1 = env.stdout ++ env.stderr ∧
      (executeCommand p env).2.1 =
        some (ExecErr.timedOut p.timeoutSeconds) ∧
      ∀ m, (executeCommand p env).2.1 ≠ some (ExecErr.exitError m)) ∧
    (env.timedOut = false →
      (executeCommand p env).1 = env.stdout ++
        (if env.stdout ≠ "" ∧ env.stderr ≠ "" then "\n" else "") ++
        env.stderr ∧
      (executeCommand p env).2.1 = env.exitErr.map ExecErr.exitError ∧
      ∀ s, (executeCommand p env).2.1 ≠ some (ExecErr.timedOut s)) := by
  constructor
  · intro ht
    rw [executeCommand_timedOut p env hs ht]
    refine ⟨rfl, rfl, ?_⟩
    intro m h
    simp at h
  · intro ht
    rw [executeCommand_completed p env hs ht]
    refine ⟨?_, rfl, ?_⟩
    · by_cases h1 : env.stderr = ""
      · rw [h1]
        simp [String.append_empty]
      · have hpos : 0 < env.stderr.length := (string_length_pos_iff _).mpr h1
        by_cases h2 : env.stdout = ""
        · simp [hpos, h1, h2, String.append_empty]
        · simp [hpos, h1, h2]
    · intro s hcontra
      rcases hx : env.exitErr with _ | m <;> rw [hx] at hcontra <;>
        simp at hcontra

/-- Normal-completion process outcome for the C8 witness: both streams
non-empty. -/
def c8OkExec : ExecEnv := { stdout := "a", stderr := "b" }

/-- C8 amended witness: the normal-completion branch inserts the newline
between the non-empty streams, and the timeout branch of the concrete
counterexample scenario carries the timeout error. -/
theorem C8_output_concatenation_and_timeout_error_witness :
    c8OkExec.startErr = none ∧
    (executeCommand c8Project c8OkExec).1 =
      c8OkExec.stdout ++
        (if c8OkExec.stdout ≠ "" ∧ c8OkExec.stderr ≠ "" then "\n" else "") ++
        c8OkExec.stderr ∧
    ∀ s, (executeCommand c8Project c8OkExec).2.1 ≠
      some (ExecErr.timedOut s) :=
  ⟨rfl,
   ((C8_output_concatenation_and_timeout_error c8Project c8OkExec rfl).2
     rfl).1,
   ((C8_output_concatenation_and_timeout_error c8Project c8OkExec rfl).2
     rfl).2.2⟩

/-- Every event of the deploy body is shaped by the project: clones and
pulls and command executions always carry the project's effective run-as
identity. -/
theorem deployBody_event_shapes (p : ProjectConfig) (trigger : String)
    (env : DeployEnv) (t0 t1 : Nat) :
    ∀ ev ∈ (deployBody p trigger env t0 t1).2,
      ev = DeployEvent.gitClone p.gitBranch p.gitRepo p.localPath
        (getEffectiveRunAs p).1 (getEffectiveRunAs p).2 ∨
      ev = DeployEvent.gitPull p.localPath
        (getEffectiveRunAs p).1 (getEffectiveRunAs p).2 ∨
      ev = DeployEvent.executeCmd p.executeCommand
        (getEffectiveRunAs p).1 (getEffectiveRunAs p).2 ∨
      ev = DeployEvent.killProcessGroup ∨
      ∃ res, ev = DeployEvent.notify p res trigger := by
  intro ev hev
  rcases hg : (if p.gitRepo ≠ "" then handleGitOperations p env
      else ((none : Option String), ([] : List DeployEvent))) with ⟨e?, gevs⟩
  have hgevs : ∀ e ∈ gevs,
      e = DeployEvent.gitClone p.gitBranch p.gitRepo p.localPath
        (getEffectiveRunAs p).1 (getEffectiveRunAs p).2 ∨
      e = DeployEvent.gitPull p.localPath
        (getEffectiveRunAs p).1 (getEffectiveRunAs p).2 := by
    by_cases hr : p.gitRepo ≠ ""
    · rw [if_pos hr] at hg
      intro e he
      exact handleGitOperations_events p env e (by rw [hg]; exact he)
    · rw [if_neg hr] at hg
      cases hg
      intro e he
      cases he
  rcases e? with _ | e
  · rw [deployBody_gitOk p trigger env t0 t1 gevs hg] at hev
    rcases List.mem_append.mp hev with h | h
    · rcases List.mem_append.mp h with h | h
      · rcases hgevs ev h with h2 | h2 <;> tauto
      · rcases executeCommand_events p env.exec ev h with h2 | h2 <;> tauto
    · exact Or.inr (Or.inr (Or.inr (Or.inr
        ⟨_, notifyEvents_shape p _ trigger env ev h⟩)))
  · by_cases hr : p.gitRepo ≠ ""
    · rw [if_pos hr] at hg
      rw [deployBody_gitError p trigger env t0 t1 e gevs hr hg] at hev
      simp only at hev
      rcases List.mem_append.mp hev with h | h
      · rcases hgevs ev h with h2 | h2 <;> tauto
      · exact Or.inr (Or.inr (Or.inr (Or.inr
          ⟨_, notifyEvents_shape p _ trigger env ev h⟩)))
    · rw [if_neg hr] at hg
      simp at hg

/-- C9: a project whose run-as user and group are left empty gets the fixed
default identity `www-data:www-data`, and that effective identity is the
one carried by every version-control operation and every command execution
the deployment performs. -/
theorem C9_runas_defaults_to_wwwdata (p : ProjectConfig) (trigger : String)
    (env : DeployEnv) (t0 t1 : Nat)
    (hu : p.runAsUser = "") (hgr : p.runAsGroup = "") :
    getEffectiveRunAs p = ("www-data", "www-data") ∧
    (∀ b r l u g, DeployEvent.gitClone b r l u g ∈
        (deploy p trigger env t0 t1).2 →
      u = "www-data" ∧ g = "www-data") ∧
    (∀ l u g, DeployEvent.gitPull l u g ∈ (deploy p trigger env t0 t1).2 →
      u = "www-data" ∧ g = "www-data") ∧
    (∀ c u g, DeployEvent.executeCmd c u g ∈ (deploy p trigger env t0 t1).2 →
      u = "www-data" ∧ g = "www-data") := by
  have heff : getEffectiveRunAs p = ("www-data", "www-data") := by
    simp [getEffectiveRunAs, hu, hgr]
  have hw1 : (getEffectiveRunAs p).1 = "www-data" := by rw [heff]
  have hw2 : (getEffectiveRunAs p).2 = "www-data" := by rw [heff]
  have hbody : ∀ u g ev, ev ∈ (deployBody p trigger env t0 t1).2 →
      ((∃ b r l, ev = DeployEvent.gitClone b r l u g) ∨
       (∃ l, ev = DeployEvent.gitPull l u g) ∨
       (∃ c, ev = DeployEvent.executeCmd c u g)) →
      u = "www-data" ∧ g = "www-data" := by
    intro u g ev hev hshape
    rcases deployBody_event_shapes p trigger env t0 t1 ev hev
      with h2 | h2 | h2 | h2 | ⟨res, h2⟩ <;>
      (try rw [hw1, hw2] at h2) <;>
      rcases hshape with ⟨b, r, l, h3⟩ | ⟨l, h3⟩ | ⟨c, h3⟩ <;>
      rw [h3] at h2 <;> simp at h2 <;> tauto
  have hmem : ∀ (ev : DeployEvent), ev ∈ (deploy p trigger env t0 t1).2 →
      ev = DeployEvent.incrementCounter ∨
      ev ∈ (deployBody p trigger env t0 t1).2 ∨
      ev = DeployEvent.unlock ∨ ev = DeployEvent.decrementCounter ∨
      ev = DeployEvent.processPendingReload := by
    intro ev hev
    rcases hlf : env.lockFree with _ | _
    · simp [deploy, hlf] at hev
    · rw [deploy_trace_mem p trigger env t0 t1 hlf] at hev
      tauto
  refine ⟨heff, ?_, ?_, ?_⟩
  · intro b r l u g hm
    rcases hmem _ hm with h | h | h | h | h
    · cases h
    · exact hbody u g _ h (Or.inl ⟨b, r, l, rfl⟩)
    · cases h
    · cases h
    · cases h
  · intro l u g hm
    rcases hmem _ hm with h | h | h | h | h
    · cases h
    · exact hbody u g _ h (Or.inr (Or.inl ⟨l, rfl⟩))
    · cases h
    · cases h
    · cases h
  · intro c u g hm
    rcases hmem _ hm with h | h | h | h | h
    · cases h
    · exact hbody u g _ h (Or.inr (Or.inr ⟨c, rfl⟩))
    · cases h
    · cases h
    · cases h

/-- C9 witness: the no-repository project (empty run-as fields) deployed in
the plain environment — the defaults apply and the one command execution in
the trace carries them. -/
theorem C9_runas_defaults_to_wwwdata_witness :
    cProject.runAsUser = "" ∧ cProject.runAsGroup = "" ∧
    getEffectiveRunAs cProject = ("www-data", "www-data") ∧
    (∀ c u g, DeployEvent.executeCmd c u g ∈
        (deploy cProject "WEBHOOK" c2Env 0 1).2 →
      u = "www-data" ∧ g = "www-data") :=
  ⟨rfl, rfl,
   (C9_runas_defaults_to_wwwdata cProject "WEBHOOK" c2Env 0 1 rfl rfl).1,
   (C9_runas_defaults_to_wwwdata cProject "WEBHOOK" c2Env 0 1 rfl rfl).2.2.2⟩
